import Mathlib

/-!
Verification of the Kundali-Generator repository's numeric core.

The Python floating-point arithmetic is embedded over `ℚ` (exact
arithmetic).  Python's `%` on floats with a positive divisor is floored
modulus (`pymod`), `int(...)` truncates toward zero (`pyint`), and
`round(...)` rounds half to even (`pyround`); each is modelled
explicitly below.  Functions are translated from the source files
`app.py`, `astro_chalit_swiss.py`, `chalit_kundali_renderer.py` and
`kundali_markers_lib.py`.
-/

namespace Kundali

/-- Python `a % b` for a positive real divisor: floored modulus. -/
def pymod (a b : ℚ) : ℚ := a - b * ⌊a / b⌋

/-- Python `int(x)`: truncation toward zero. -/
def pyint (q : ℚ) : ℤ := if 0 ≤ q then ⌊q⌋ else -⌊-q⌋

/-- Python `round(x)`: round half to even. -/
def pyround (q : ℚ) : ℤ :=
  if q - ⌊q⌋ < 1/2 then ⌊q⌋
  else if 1/2 < q - ⌊q⌋ then ⌊q⌋ + 1
  else if ⌊q⌋ % 2 = 0 then ⌊q⌋ else ⌊q⌋ + 1

/-- `app.py` `_norm360`: `x % 360.0`, then add 360 if negative. -/
def _norm360 (x : ℚ) : ℚ :=
  let y := pymod x 360
  if 0 ≤ y then y else y + 360

/-- `astro_chalit_swiss.py` `_degnorm`: same computation as `_norm360`. -/
def _degnorm (x : ℚ) : ℚ :=
  let y := pymod x 360
  if 0 ≤ y then y else y + 360

/-- `chalit_kundali_renderer.py` `_norm`: same computation again. -/
def _norm (x : ℚ) : ℚ :=
  let y := pymod x 360
  if 0 ≤ y then y else y + 360

/-- The spec's `normalize(x) = ((x mod 360) + 360) mod 360`. -/
def specNormalize (x : ℚ) : ℚ := pymod (pymod x 360 + 360) 360

/-- The spec's `forwardArc(a, b) = normalize(b − a)`. -/
def forwardArc (a b : ℚ) : ℚ := specNormalize (b - a)

/-- Round a degree value to the nearest arc-second:
the inline `round(v * 3600.0) / 3600.0` of `compute_chalit_cusps_arrays`. -/
def roundSecond (v : ℚ) : ℚ := (pyround (v * 3600) : ℚ) / 3600

/-- `app.py` `compute_chalit_cusps_arrays`, modelled from the point where the
Swiss-ephemeris call has returned tropical cusps `cusps_trop` (1-based house
`i+1` at index `i`) and the ayanamsa `ay`.  Returns `(begins_sid, mids_sid)`. -/
def compute_chalit_cusps_arrays (cusps_trop : Fin 12 → ℚ) (ay : ℚ) :
    (Fin 12 → ℚ) × (Fin 12 → ℚ) :=
  let cusps_sid : Fin 12 → ℚ := fun i => roundSecond (pymod (cusps_trop i - ay) 360)
  let begins_sid : Fin 12 → ℚ := fun i =>
    let prev_cusp := cusps_sid (i - 1)
    let this_cusp := cusps_sid i
    let arc := pymod (this_cusp - prev_cusp) 360
    roundSecond (pymod (prev_cusp + arc / 2) 360)
  (begins_sid, cusps_sid)

/-- `astro_chalit_swiss.py` `get_chalit_begins_mids_swiss`, modelled from the
point where `swe.houses_ex` has returned the cusps (house `i+1` at index `i`).
Returns `(begins, mids)`. -/
def get_chalit_begins_mids_swiss (cusps : Fin 12 → ℚ) :
    (Fin 12 → ℚ) × (Fin 12 → ℚ) :=
  let raw_cusps : Fin 12 → ℚ := fun i => _degnorm (cusps i)
  let begins : Fin 12 → ℚ := fun i =>
    let current_cusp := raw_cusps i
    let next_cusp := raw_cusps (i + 1)
    let next_cusp := if next_cusp < current_cusp then next_cusp + 360 else next_cusp
    let arc := next_cusp - current_cusp
    _degnorm (current_cusp + 1/2 * arc)
  (begins, raw_cusps)

/-- `app.py` `_is_between_ccw`. -/
def _is_between_ccw (x start stop : ℚ) : Bool :=
  let x := _norm360 x
  let s := _norm360 start
  let e := _norm360 stop
  if s ≤ e then decide (s ≤ x ∧ x < e) else decide (x ≥ s ∨ x < e)

/-- `app.py` `chalit_house_index_of_lon`: first 1-based `i` whose
counter-clockwise interval `[begins[i], begins[i+1])` contains the longitude,
else 12.  `begins_sid i` stands for the source's `begins_sid[i+1]`. -/
def chalit_house_index_of_lon (lon_sid : ℚ) (begins_sid : Fin 12 → ℚ) : ℕ :=
  match List.find? (fun i : Fin 12 =>
      _is_between_ccw lon_sid (begins_sid i) (begins_sid (i + 1)))
      (List.finRange 12) with
  | some i => i.val + 1
  | none => 12

/-- `chalit_kundali_renderer.py` `house_index_for_lon_chalit`: first 0-based
`i` with `0 ≤ (lon−b i) % 360 < (b (i+1) − b i) % 360` (degenerate zero-width
intervals skipped), returned 1-based; otherwise the source's `max(...)`
fallback over the lexicographic key, keeping the first maximum as Python
`max` does. -/
def house_index_for_lon_chalit (lon_sid : ℚ) (begins_sid : Fin 12 → ℚ) : ℕ :=
  let lon := _norm lon_sid
  match List.find? (fun i : Fin 12 =>
      !(decide (pymod (begins_sid (i + 1) - begins_sid i) 360 = 0)) &&
      decide (0 ≤ pymod (lon - begins_sid i) 360 ∧
        pymod (lon - begins_sid i) 360 <
          pymod (begins_sid (i + 1) - begins_sid i) 360))
      (List.finRange 12) with
  | some i => i.val + 1
  | none =>
      let key := fun k : Fin 12 =>
        (decide (pymod (_norm (lon - begins_sid k)) 360 < 180),
          -(pymod (_norm (lon - begins_sid k)) 360))
      let better := fun (a b : Bool × ℚ) =>
        (b.1 = false ∧ a.1 = true) ∨ (a.1 = b.1 ∧ b.2 < a.2)
      ((List.finRange 12).foldl (fun best k =>
          if better (key k) (key best) then k else best) 0).val + 1

/-- `chalit_kundali_renderer.py` `rasi_house_of_lon`. -/
def rasi_house_of_lon (lon_sid : ℚ) (lagna_sign : ℤ) : ℤ :=
  let sign := ⌊_norm lon_sid / 30⌋ + 1
  ((sign - lagna_sign) % 12) + 1

/-- The per-planet house computation inside `app.py`
`build_rasi_house_planets`: `sign = int(lon // 30) + 1`,
`h = ((sign - lagna_sign) % 12) + 1`. -/
def app_rasi_house (lon : ℚ) (lagna_sign : ℤ) : ℤ :=
  let sign := ⌊lon / 30⌋ + 1
  ((sign - lagna_sign) % 12) + 1

/-- The spec's Rasi-house formula `((floor(L/30)+1 − S) mod 12) + 1`. -/
def specRasiHouse (L : ℚ) (S : ℤ) : ℤ := ((⌊L / 30⌋ + 1 - S) % 12) + 1

/-- `app.py` `ORDER`: the fixed 9-lord Vimshottari cycle. -/
def ORDER : List String := ["Ke", "Ve", "Su", "Mo", "Ma", "Ra", "Ju", "Sa", "Me"]

/-- `app.py` `YEARS` (total function; lookups only ever hit the nine keys). -/
def YEARS (p : String) : ℚ :=
  if p = "Ke" then 7
  else if p = "Ve" then 20
  else if p = "Su" then 6
  else if p = "Mo" then 10
  else if p = "Ma" then 7
  else if p = "Ra" then 18
  else if p = "Ju" then 16
  else if p = "Sa" then 19
  else if p = "Me" then 17
  else 0

/-- `app.py` `YEAR_DAYS = 365.2422`. -/
def YEAR_DAYS : ℚ := 365.2422

/-- `app.py` `moon_balance_days`. -/
def moon_balance_days (moon_sid : ℚ) : String × ℚ :=
  let NAK : ℚ := 360 / 27
  let part := pymod moon_sid 360
  let ni : ℤ := ⌊part / NAK⌋
  let pos := part - ni * NAK
  let md_lord := ORDER.getD (ni.toNat % 9) ""
  let frac := pos / NAK
  (md_lord, YEARS md_lord * (1 - frac) * YEAR_DAYS)

/-- One Antardasha tuple `(L, start, end, dur)` of `antar_segments_in_md_utc`;
times are UTC instants in days (the Python `datetime` arithmetic only ever
adds day counts). -/
structure AntarSeg where
  lord : String
  start : ℚ
  stop : ℚ
  days : ℚ
  deriving DecidableEq, Repr

/-- `app.py` `antar_segments_in_md_utc`. -/
def antar_segments_in_md_utc (md_lord : String) (md_start_utc md_days : ℚ) :
    List AntarSeg :=
  let start_idx := ORDER.indexOf md_lord
  ((List.range 9).foldl (fun (st : List AntarSeg × ℚ) i =>
    let L := ORDER.getD ((start_idx + i) % 9) ""
    let dur := YEARS L * (md_days / 120)
    let start := st.2
    let stop := start + dur
    (st.1 ++ [⟨L, start, stop, dur⟩], stop)) ([], md_start_utc)).1

/-- One Pratyantardasha tuple `(L, start, end)` of `pratyantars_in_antar_utc`. -/
structure PratSeg where
  lord : String
  start : ℚ
  stop : ℚ
  deriving DecidableEq, Repr

/-- `app.py` `pratyantars_in_antar_utc`. -/
def pratyantars_in_antar_utc (antar_lord : String) (antar_start_utc antar_days : ℚ) :
    List PratSeg :=
  let start_idx := ORDER.indexOf antar_lord
  ((List.range 9).foldl (fun (st : List PratSeg × ℚ) i =>
    let L := ORDER.getD ((start_idx + i) % 9) ""
    let dur := YEARS L * (antar_days / 120)
    let start := st.2
    let stop := start + dur
    (st.1 ++ [⟨L, start, stop⟩], stop)) ([], antar_start_utc)).1

/-- A Mahadasha segment dict `{"planet", "start", "end", "days"}` as consumed
by `next_antar_in_days_utc`. -/
structure MdSeg where
  planet : String
  start : ℚ
  stop : ℚ
  days : ℚ
  deriving DecidableEq, Repr

/-- A result row `{"major", "antar", "end"}` of `next_antar_in_days_utc`. -/
structure AntarRow where
  major : String
  antar : String
  stop : ℚ
  deriving DecidableEq, Repr

/-- `app.py` `next_antar_in_days_utc`; Python's stable `list.sort(key=end)`
is modelled by the stable `List.mergeSort`. -/
def next_antar_in_days_utc (now_utc : ℚ) (md_segments : List MdSeg)
    (days_window : ℚ) : List AntarRow :=
  let horizon := now_utc + days_window
  let rows := md_segments.flatMap (fun seg =>
    (antar_segments_in_md_utc seg.planet seg.start seg.days).filterMap (fun a =>
      if a.stop < now_utc ∨ a.start > horizon then none
      else some ⟨seg.planet, a.lord, min a.stop horizon⟩))
  rows.mergeSort (fun r1 r2 => decide (r1.stop ≤ r2.stop))

/-- `app.py` `COMBUST_ORB` (Sun, Rahu, Ketu absent). -/
def COMBUST_ORB : List (String × ℚ) :=
  [("Mo", 12), ("Ma", 17), ("Me", 12), ("Ju", 11), ("Ve", 10), ("Sa", 15)]

/-- `app.py` `REQUIRE_SAME_SIGN_FOR_COMBUST = False`. -/
def REQUIRE_SAME_SIGN_FOR_COMBUST : Bool := false

/-- `app.py` `_min_circ_angle`. -/
def _min_circ_angle (a b : ℚ) : ℚ :=
  let d := |pymod (a - b) 360|
  if d ≤ 180 then d else 360 - d

/-- `app.py` `planet_rasi_sign`: `int(lon_sid // 30) + 1`. -/
def planet_rasi_sign (lon_sid : ℚ) : ℤ := ⌊lon_sid / 30⌋ + 1

/-- `app.py` `navamsa_sign_from_lon_sid`. -/
def navamsa_sign_from_lon_sid (lon_sid : ℚ) : ℤ :=
  let sign := ⌊lon_sid / 30⌋ + 1
  let deg_in_sign := pymod lon_sid 30
  let pada : ℤ := ⌊deg_in_sign / (30 / 9)⌋
  let start :=
    if sign = 1 ∨ sign = 4 ∨ sign = 7 ∨ sign = 10 then sign
    else if sign = 2 ∨ sign = 5 ∨ sign = 8 ∨ sign = 11 then ((sign + 8 - 1) % 12) + 1
    else ((sign + 4 - 1) % 12) + 1
  ((start - 1 + pada) % 12) + 1

/-- `app.py` `SIGN_LORD`. -/
def SIGN_LORD : List (ℤ × String) :=
  [(1, "Ma"), (2, "Ve"), (3, "Me"), (4, "Mo"), (5, "Su"), (6, "Me"),
   (7, "Ve"), (8, "Ma"), (9, "Ju"), (10, "Sa"), (11, "Sa"), (12, "Ju")]

/-- `app.py` `EXALT_SIGN`. -/
def EXALT_SIGN : List (String × ℤ) :=
  [("Su", 1), ("Mo", 2), ("Ma", 10), ("Me", 6), ("Ju", 4), ("Ve", 12),
   ("Sa", 7), ("Ra", 2), ("Ke", 8)]

/-- `app.py` `DEBIL_SIGN`. -/
def DEBIL_SIGN : List (String × ℤ) :=
  [("Su", 7), ("Mo", 8), ("Ma", 4), ("Me", 12), ("Ju", 10), ("Ve", 6),
   ("Sa", 1), ("Ra", 8), ("Ke", 2)]

/-- One per-planet entry of the dict built by `compute_statuses_all`. -/
structure Status where
  rasi : ℤ
  nav : ℤ
  vargottama : Bool
  combust : Bool
  self_rasi : Bool
  self_nav : Bool
  exalt_rasi : Bool
  exalt_nav : Bool
  debil_rasi : Bool
  debil_nav : Bool
  deriving DecidableEq, Repr

/-- The nine planet codes `compute_statuses_all` iterates over. -/
def PLANET_CODES : List String :=
  ["Su", "Mo", "Ma", "Me", "Ju", "Ve", "Sa", "Ra", "Ke"]

/-- The loop body of `app.py` `compute_statuses_all` for one planet code,
including the final Rahu/Ketu exaltation/debilitation override. -/
def statusOf (sidelons : String → ℚ) (code : String) : Status :=
  let sun_lon := sidelons "Su"
  let lon := sidelons code
  let rasi := planet_rasi_sign lon
  let nav := navamsa_sign_from_lon_sid lon
  let varg := decide (rasi = nav)
  let combust :=
    match COMBUST_ORB.lookup code with
    | some orb =>
        if code ≠ "Su" then
          if !REQUIRE_SAME_SIGN_FOR_COMBUST ||
              decide (planet_rasi_sign lon = planet_rasi_sign sun_lon) then
            decide (_min_circ_angle lon sun_lon ≤ orb)
          else false
        else false
    | none => false
  let base : Status :=
    { rasi := rasi
      nav := nav
      vargottama := varg
      combust := combust
      self_rasi := decide (SIGN_LORD.lookup rasi = some code)
      self_nav := decide (SIGN_LORD.lookup nav = some code)
      exalt_rasi := decide (EXALT_SIGN.lookup code = some rasi)
      exalt_nav := decide (EXALT_SIGN.lookup code = some nav)
      debil_rasi := decide (DEBIL_SIGN.lookup code = some rasi)
      debil_nav := decide (DEBIL_SIGN.lookup code = some nav) }
  if code = "Ra" ∨ code = "Ke" then
    { base with exalt_rasi := false, exalt_nav := false,
                debil_rasi := false, debil_nav := false }
  else base

/-- `app.py` `compute_statuses_all`. -/
def compute_statuses_all (sidelons : String → ℚ) : List (String × Status) :=
  PLANET_CODES.map (fun code => (code, statusOf sidelons code))

/-- `kundali_markers_lib.py` `COMB_ORB` (zero orbs for the nodes). -/
def COMB_ORB : List (String × ℚ) :=
  [("Mo", 12), ("Ma", 17), ("Me", 12), ("Ju", 11), ("Ve", 10), ("Sa", 15),
   ("Ra", 0), ("Ke", 0)]

/-- `kundali_markers_lib.py` `_sep_deg`. -/
def _sep_deg (a b : ℚ) : ℚ :=
  let d := |pymod (a - b) 360|
  if d ≤ 180 then d else 360 - d

/-- `kundali_markers_lib.py` `_is_combust_d1`. -/
def _is_combust_d1 (code : String) (sidelons : String → ℚ) : Bool :=
  match COMB_ORB.lookup code with
  | none => false
  | some orb =>
      if orb = 0 then false
      else decide (_sep_deg (sidelons code) (sidelons "Su") ≤ orb)

/-- The numeric core of `app.py` `_dms_signwise_str`: the `(D, M, S)` triple
the string `f"{D:02d}.{M:02d}.{S:02d}"` is formatted from. -/
def _dms_signwise (x : ℚ) : ℤ × ℤ × ℤ :=
  let d := pymod x 30
  let D := pyint d
  let mfloat := (d - D) * 60
  let M := pyint mfloat
  let S := pyround ((mfloat - M) * 60)
  let SM : ℤ × ℤ := if S = 60 then (0, M + 1) else (S, M)
  let S := SM.1
  let M := SM.2
  let MD : ℤ × ℤ := if M = 60 then (0, D + 1) else (M, D)
  let M := MD.1
  let D := MD.2
  if D ≥ 30 then (29, 59, 59) else (D, M, S)

/-- The numeric core of `astro_chalit_swiss.py` `_deg_to_dms_string`: the
`(d, m, s)` triple the string `f"{d:02d}.{m:02d}.{s:02d}"` is formatted
from. -/
def _deg_to_dms (lon : ℚ) : ℤ × ℤ × ℤ :=
  let lon := _degnorm lon
  let within := pymod lon 30
  let d := pyint within
  let m_float := (within - d) * 60
  let m := pyint m_float
  let s := pyround ((m_float - m) * 60)
  let sm : ℤ × ℤ := if s = 60 then (0, m + 1) else (s, m)
  let s := sm.1
  let m := sm.2
  let md : ℤ × ℤ := if m = 60 then (0, d + 1) else (m, d)
  let m := md.1
  let d := md.2
  if d = 30 then (0, m, s) else (d, m, s)

/-- `kundali_markers_lib.py` `_angle_ratio`. -/
def _angle_ratio (start angle stop : ℚ) : ℚ :=
  let start := pymod start 360
  let stop := pymod stop 360
  let angle := pymod angle 360
  if start ≤ stop then
    if stop - start = 0 then 1/2
    else (angle - start) / (stop - start)
  else
    let total_range := (360 - start) + stop
    if total_range = 0 then 1/2
    else if angle ≥ start then (angle - start) / total_range
    else ((360 - start) + angle) / total_range

/-- The denominator `_angle_ratio` divides by on its non-default branches. -/
def _angle_ratio_den (start stop : ℚ) : ℚ :=
  let start := pymod start 360
  let stop := pymod stop 360
  if start ≤ stop then stop - start else (360 - start) + stop

/-- Claimed behaviour of `moon_balance_days`: nakshatra index
`floor((m mod 360) / (360/27))`, lord taken at that index modulo 9 in the
fixed cycle `ORDER`, balance `years × (1 − frac) × YEAR_DAYS`, and at an
exact nakshatra boundary the full allocation `years × YEAR_DAYS`. -/
def MoonBalanceSpec (m : ℚ) : Prop :=
  let NAK : ℚ := 360 / 27
  let part := pymod m 360
  let ni : ℤ := ⌊part / NAK⌋
  let lord := ORDER.getD (ni.toNat % 9) ""
  (moon_balance_days m).1 = lord ∧
  (moon_balance_days m).2 = YEARS lord * (1 - (part - ni * NAK) / NAK) * YEAR_DAYS ∧
  (part = ni * NAK → (moon_balance_days m).2 = YEARS lord * YEAR_DAYS)

/-- Claimed combustion behaviour, for one set of sidereal longitudes: the
Sun, Rahu and Ketu are never flagged combust, and a classical planet with a
configured orb is combust exactly when its angular separation from the Sun is
at most that orb — in both the `app.py` statuses and the markers-library
check. -/
def CombustSpec (sidelons : String → ℚ) : Prop :=
  (statusOf sidelons "Su").combust = false ∧
  (statusOf sidelons "Ra").combust = false ∧
  (statusOf sidelons "Ke").combust = false ∧
  _is_combust_d1 "Su" sidelons = false ∧
  _is_combust_d1 "Ra" sidelons = false ∧
  _is_combust_d1 "Ke" sidelons = false ∧
  (∀ code orb, COMBUST_ORB.lookup code = some orb →
    ((statusOf sidelons code).combust = true ↔
      _min_circ_angle (sidelons code) (sidelons "Su") ≤ orb)) ∧
  (∀ code orb, COMBUST_ORB.lookup code = some orb →
    (_is_combust_d1 code sidelons = true ↔
      _sep_deg (sidelons code) (sidelons "Su") ≤ orb))

/-- Claimed Rasi-house behaviour for a lagna sign `S`: the assignment equals
the spec formula on `[0, 360)` (in both implementations), the 125.3° example
gives sign 5 and house 5, and sweeping the longitude once around the circle
steps through the twelve houses cyclically, hitting each exactly once. -/
def RasiSweepSpec (S : ℤ) : Prop :=
  (∀ L : ℚ, 0 ≤ L → L < 360 →
    rasi_house_of_lon L S = specRasiHouse L S ∧
    app_rasi_house L S = specRasiHouse L S) ∧
  rasi_house_of_lon (1253/10) 1 = 5 ∧
  planet_rasi_sign (1253/10) = 5 ∧
  (∀ k : ℕ, k < 11 →
    rasi_house_of_lon (30 * (k + 1) : ℚ) S =
      rasi_house_of_lon (30 * k : ℚ) S % 12 + 1) ∧
  (∀ h : ℤ, 1 ≤ h → h ≤ 12 → ∃ k : ℕ, k < 12 ∧
    rasi_house_of_lon (30 * k : ℚ) S = h ∧
    ∀ j : ℕ, j < 12 → rasi_house_of_lon (30 * j : ℚ) S = h → j = k)

/-- Claimed (amended) DMS-formatter behaviour at one longitude: both
formatters produce triples with seconds and minutes in `[0, 60)` and the
degree in `[0, 30)` (so the second/minute carries propagate), and they agree
except when the carry reaches degree 30, where `_deg_to_dms_string` wraps to
`00.00.00` while `_dms_signwise_str` clamps to `29.59.59`. -/
def DmsSpec (x : ℚ) : Prop :=
  (0 ≤ (_dms_signwise x).1 ∧ (_dms_signwise x).1 < 30 ∧
   0 ≤ (_dms_signwise x).2.1 ∧ (_dms_signwise x).2.1 < 60 ∧
   0 ≤ (_dms_signwise x).2.2 ∧ (_dms_signwise x).2.2 < 60) ∧
  (0 ≤ (_deg_to_dms x).1 ∧ (_deg_to_dms x).1 < 30 ∧
   0 ≤ (_deg_to_dms x).2.1 ∧ (_deg_to_dms x).2.1 < 60 ∧
   0 ≤ (_deg_to_dms x).2.2 ∧ (_deg_to_dms x).2.2 < 60) ∧
  (_dms_signwise x = _deg_to_dms x ∨
   (_dms_signwise x = (29, 59, 59) ∧ _deg_to_dms x = (0, 0, 0)))

/-- Claimed subdivision behaviour for a (Maha/Antar)dasha segment of lord
`md_lord`, start `md_start` and duration `md_days`: exactly 9 children in
cyclic lord order starting at `md_lord`, child durations
`yearsOf(lord) × (D/120)` summing exactly to `D`, tiling the parent interval
contiguously — for both `antar_segments_in_md_utc` and
`pratyantars_in_antar_utc`. -/
def AntarTilingSpec (md_lord : String) (md_start md_days : ℚ) : Prop :=
  (antar_segments_in_md_utc md_lord md_start md_days).length = 9 ∧
  (antar_segments_in_md_utc md_lord md_start md_days).map AntarSeg.lord =
    ORDER.rotate (ORDER.indexOf md_lord) ∧
  (∀ a ∈ antar_segments_in_md_utc md_lord md_start md_days,
    a.days = YEARS a.lord * (md_days / 120) ∧ a.stop = a.start + a.days) ∧
  ((antar_segments_in_md_utc md_lord md_start md_days).map AntarSeg.days).sum =
    md_days ∧
  (antar_segments_in_md_utc md_lord md_start md_days).head?.map AntarSeg.start =
    some md_start ∧
  List.Chain' (fun a b => b.start = a.stop)
    (antar_segments_in_md_utc md_lord md_start md_days) ∧
  (antar_segments_in_md_utc md_lord md_start md_days).getLast?.map AntarSeg.stop =
    some (md_start + md_days) ∧
  (pratyantars_in_antar_utc md_lord md_start md_days).length = 9 ∧
  (pratyantars_in_antar_utc md_lord md_start md_days).map PratSeg.lord =
    ORDER.rotate (ORDER.indexOf md_lord) ∧
  (∀ p ∈ pratyantars_in_antar_utc md_lord md_start md_days,
    p.stop = p.start + YEARS p.lord * (md_days / 120)) ∧
  (pratyantars_in_antar_utc md_lord md_start md_days).head?.map PratSeg.start =
    some md_start ∧
  List.Chain' (fun a b => b.start = a.stop)
    (pratyantars_in_antar_utc md_lord md_start md_days) ∧
  (pratyantars_in_antar_utc md_lord md_start md_days).getLast?.map PratSeg.stop =
    some (md_start + md_days)

/-- Amended behaviour of `next_antar_in_days_utc`: the returned rows are
exactly the Antardasha segments (across all Mahadashas) that overlap
`[now, now+window]` (segment end ≥ now and segment start ≤ now+window), each
reported with its end clamped to `min(end, now+window)`, sorted ascending by
that reported end. -/
def NextAntarSpec (now_utc : ℚ) (md_segments : List MdSeg)
    (days_window : ℚ) : Prop :=
  (∀ r : AntarRow, r ∈ next_antar_in_days_utc now_utc md_segments days_window ↔
    ∃ seg ∈ md_segments,
      ∃ a ∈ antar_segments_in_md_utc seg.planet seg.start seg.days,
        now_utc ≤ a.stop ∧ a.start ≤ now_utc + days_window ∧
        r = ⟨seg.planet, a.lord, min a.stop (now_utc + days_window)⟩) ∧
  List.Pairwise (fun r1 r2 => r1.stop ≤ r2.stop)
    (next_antar_in_days_utc now_utc md_segments days_window)

/-- The forward arc from Chalit begin `i` to the next begin. -/
def arcOf (b : Fin 12 → ℚ) (i : Fin 12) : ℚ := forwardArc (b i) (b (i + 1))

/-- Partial sums of the forward arcs, walking from begin 1. -/
def arcSum (b : Fin 12 → ℚ) (k : ℕ) : ℚ :=
  ∑ i in Finset.range k, arcOf b (i : Fin 12)

/-- Claimed Chalit house lookup behaviour at longitude `L` for a begins
array `b` (index `i` holds the source's `begins_sid[i+1]`): there is a unique
house `n` with `forwardArc(begin[n], L) < forwardArc(begin[n], begin[n+1])`,
and both implementations return it (1-based). -/
def ChalitFindSpec (L : ℚ) (b : Fin 12 → ℚ) : Prop :=
  ∃ n : Fin 12,
    forwardArc (b n) L < forwardArc (b n) (b (n + 1)) ∧
    (∀ m : Fin 12, forwardArc (b m) L < forwardArc (b m) (b (m + 1)) → m = n) ∧
    chalit_house_index_of_lon L b = n.val + 1 ∧
    house_index_for_lon_chalit L b = n.val + 1

theorem pymod_nonneg (a b : ℚ) (hb : 0 < b) : 0 ≤ pymod a b := by
  unfold pymod
  have h2 : (⌊a / b⌋ : ℚ) ≤ a / b := Int.floor_le _
  have h3 : b * (⌊a / b⌋ : ℚ) ≤ b * (a / b) := by
    exact mul_le_mul_of_nonneg_left h2 hb.le
  have h4 : b * (a / b) = a := by field_simp
  linarith

theorem pymod_lt (a b : ℚ) (hb : 0 < b) : pymod a b < b := by
  unfold pymod
  have h : a / b < (⌊a / b⌋ : ℚ) + 1 := Int.lt_floor_add_one (a / b)
  have h3 : b * (a / b) < b * ((⌊a / b⌋ : ℚ) + 1) := by
    exact mul_lt_mul_of_pos_left h hb
  have h4 : b * (a / b) = a := by field_simp
  nlinarith

theorem pymod_eq_self {a b : ℚ} (hb : 0 < b) (h0 : 0 ≤ a) (h1 : a < b) :
    pymod a b = a := by
  unfold pymod
  have : ⌊a / b⌋ = 0 := by
    rw [Int.floor_eq_zero_iff]
    constructor
    · positivity
    · rw [div_lt_one hb]; exact h1
  rw [this]; ring

theorem pymod_add_int_mul (a b : ℚ) (k : ℤ) (hb : 0 < b) :
    pymod (a + b * k) b = pymod a b := by
  unfold pymod
  have : (a + b * k) / b = a / b + k := by field_simp; ring
  rw [this, Int.floor_add_int]
  push_cast
  ring

/-- Two reals congruent mod `b` have the same `pymod`. -/
theorem pymod_eq_of_sub_int_mul {a a' b : ℚ} (hb : 0 < b) (k : ℤ)
    (h : a' = a + b * k) : pymod a' b = pymod a b := by
  subst h; exact pymod_add_int_mul a b k hb

theorem norm360_eq_pymod (x : ℚ) : _norm360 x = pymod x 360 := by
  unfold _norm360
  simp [pymod_nonneg x 360 (by norm_num)]

theorem norm360_nonneg (x : ℚ) : 0 ≤ _norm360 x := by
  rw [norm360_eq_pymod]; exact pymod_nonneg x 360 (by norm_num)

theorem norm360_lt (x : ℚ) : _norm360 x < 360 := by
  rw [norm360_eq_pymod]; exact pymod_lt x 360 (by norm_num)

theorem norm360_eq_self {x : ℚ} (h0 : 0 ≤ x) (h1 : x < 360) : _norm360 x = x := by
  rw [norm360_eq_pymod]; exact pymod_eq_self (by norm_num) h0 h1

theorem degnorm_eq_norm360 (x : ℚ) : _degnorm x = _norm360 x := rfl

theorem norm_eq_norm360 (x : ℚ) : _norm x = _norm360 x := rfl

theorem specNormalize_eq_norm360 (x : ℚ) : specNormalize x = _norm360 x := by
  unfold specNormalize
  rw [norm360_eq_pymod]
  have h : pymod x 360 + 360 = pymod x 360 + 360 * ((1 : ℤ) : ℚ) := by norm_num
  rw [pymod_eq_of_sub_int_mul (by norm_num) 1 h]
  exact pymod_eq_self (by norm_num) (pymod_nonneg x 360 (by norm_num))
    (pymod_lt x 360 (by norm_num))

theorem forwardArc_eq_pymod (a b : ℚ) : forwardArc a b = pymod (b - a) 360 := by
  rw [forwardArc, specNormalize_eq_norm360, norm360_eq_pymod]

/-- Decompose a value into its `pymod` and the multiple of `b` removed. -/
theorem pymod_spec (a b : ℚ) : a = pymod a b + b * ⌊a / b⌋ := by
  unfold pymod; ring

theorem pymod_zero (b : ℚ) : pymod 0 b = 0 := by
  unfold pymod
  norm_num

theorem pymod_self_sub (t : ℚ) (ht0 : -360 < t) (ht1 : t < 0) :
    pymod t 360 = t + 360 := by
  have h : t = (t + 360) + 360 * ((-1 : ℤ) : ℚ) := by push_cast; ring
  rw [pymod_eq_of_sub_int_mul (by norm_num) (-1) h]
  exact pymod_eq_self (by norm_num) (by linarith) (by linarith)

/-- `pymod (-y) 360` in terms of `pymod y 360`. -/
theorem pymod_neg (y : ℚ) :
    pymod (-y) 360 = if pymod y 360 = 0 then 0 else 360 - pymod y 360 := by
  have hy0 := pymod_nonneg y 360 (by norm_num)
  have hy1 := pymod_lt y 360 (by norm_num)
  have hdecomp := pymod_spec y 360
  have hshift : -y = -(pymod y 360) + 360 * ((-⌊y / 360⌋ : ℤ) : ℚ) := by
    push_cast
    linarith [hdecomp]
  rw [pymod_eq_of_sub_int_mul (by norm_num) (-⌊y / 360⌋) hshift]
  by_cases h : pymod y 360 = 0
  · simp [h, pymod_zero]
  · have hpos : 0 < pymod y 360 := lt_of_le_of_ne hy0 (Ne.symm h)
    rw [if_neg h, pymod_self_sub (-(pymod y 360)) (by linarith) (by linarith)]
    ring

/-- C8: the normalization function of both implementations maps every real
input into `[0, 360)` and is idempotent. -/
theorem claim_C8_norm360_range_idem : ∀ x : ℚ,
    0 ≤ _norm360 x ∧ _norm360 x < 360 ∧ _norm360 (_norm360 x) = _norm360 x ∧
    _degnorm x = _norm360 x ∧ _degnorm (_degnorm x) = _degnorm x ∧
    specNormalize x = _norm360 x := by
  intro x
  have h0 := norm360_nonneg x
  have h1 := norm360_lt x
  have hid := norm360_eq_self h0 h1
  exact ⟨h0, h1, hid, degnorm_eq_norm360 x, hid, specNormalize_eq_norm360 x⟩

/-- C10: the content of the claim for `_angle_ratio`: numerically identical
(normalized) boundaries take the guarded branch and return the default `1/2`,
and on every other input the denominator actually divided by is nonzero, so
no division by zero ever occurs. -/
theorem claim_C10_angle_ratio_guarded : ∀ start angle stop : ℚ,
    (pymod start 360 = pymod stop 360 → _angle_ratio start angle stop = 1/2) ∧
    (pymod start 360 ≠ pymod stop 360 → _angle_ratio_den start stop ≠ 0) := by
  intro start angle stop
  constructor
  · intro h
    unfold _angle_ratio
    rw [h]
    simp
  · intro h
    unfold _angle_ratio_den
    have hs1 := pymod_lt start 360 (by norm_num)
    have he0 := pymod_nonneg stop 360 (by norm_num)
    by_cases hle : pymod start 360 ≤ pymod stop 360
    · simp only [if_pos hle]
      exact sub_ne_zero.mpr (Ne.symm h)
    · simp only [if_neg hle]
      intro hcon
      linarith

/-- Witness for C10: identical boundaries (10° and 370°) give the default
ratio 1/2, and distinct boundaries (10° and 15°) give a nonzero denominator. -/
theorem claim_C10_witness :
    _angle_ratio 10 15 370 = 1/2 ∧ _angle_ratio_den 10 15 ≠ 0 :=
  ⟨(claim_C10_angle_ratio_guarded 10 15 370).1 (by norm_num [pymod]),
   (claim_C10_angle_ratio_guarded 10 35 15).2 (by norm_num [pymod])⟩

/-- C3: `moon_balance_days` selects the Vimshottari lord by
`floor((m mod 360)/(360/27)) mod 9` in the fixed cycle and returns
`years × (1 − frac) × YEAR_DAYS`; at an exact nakshatra boundary the balance
is the full `years × YEAR_DAYS`. -/
theorem claim_C3_moon_balance : ∀ m : ℚ, MoonBalanceSpec m := by
  intro m
  refine ⟨rfl, rfl, ?_⟩
  intro h
  have hz : pymod m 360 - (⌊pymod m 360 / ((360 : ℚ)/27)⌋ : ℚ) * ((360 : ℚ)/27) = 0 := by
    linear_combination h
  show YEARS _ * (1 - (pymod m 360 - (⌊pymod m 360 / ((360 : ℚ)/27)⌋ : ℚ) * ((360 : ℚ)/27)) / ((360 : ℚ)/27)) * YEAR_DAYS = YEARS _ * YEAR_DAYS
  rw [hz]
  norm_num

/-- Witness for C3 at the exact boundary of the second nakshatra,
`m = 13°20′ = 40/3`: the boundary hypothesis holds there. -/
theorem claim_C3_witness :
    pymod (40/3) 360 = ⌊pymod (40/3 : ℚ) 360 / (360/27)⌋ * (360/27) ∧
    MoonBalanceSpec (40/3) :=
  ⟨by norm_num [pymod], claim_C3_moon_balance (40/3)⟩

theorem lookup_COMBUST_ORB {code : String} {orb : ℚ}
    (h : COMBUST_ORB.lookup code = some orb) :
    (code = "Mo" ∧ orb = 12) ∨ (code = "Ma" ∧ orb = 17) ∨
    (code = "Me" ∧ orb = 12) ∨ (code = "Ju" ∧ orb = 11) ∨
    (code = "Ve" ∧ orb = 10) ∨ (code = "Sa" ∧ orb = 15) := by
  simp only [COMBUST_ORB, List.lookup] at h
  repeat' split at h
  all_goals simp_all

/-- `_min_circ_angle` equals the spec's
`min(|a−b| mod 360, 360 − |a−b| mod 360)`. -/
theorem min_circ_angle_eq_spec (a b : ℚ) :
    _min_circ_angle a b = min (pymod |a - b| 360) (360 - pymod |a - b| 360) := by
  have hd0 := pymod_nonneg (a - b) 360 (by norm_num)
  have hd1 := pymod_lt (a - b) 360 (by norm_num)
  unfold _min_circ_angle
  have habs : |pymod (a - b) 360| = pymod (a - b) 360 := abs_of_nonneg hd0
  rw [habs]
  rcases le_or_lt 0 (a - b) with hab | hab
  · rw [abs_of_nonneg hab]
    rcases le_or_lt (pymod (a - b) 360) 180 with h180 | h180
    · rw [if_pos h180, min_eq_left (by linarith)]
    · rw [if_neg (not_le.mpr h180), min_eq_right (by linarith)]
  · rw [abs_of_neg hab, pymod_neg (a - b)]
    by_cases h0 : pymod (a - b) 360 = 0
    · rw [if_pos h0, h0]
      norm_num
    · rw [if_neg h0]
      have hpos : 0 < pymod (a - b) 360 := lt_of_le_of_ne hd0 (Ne.symm h0)
      rcases le_or_lt (pymod (a - b) 360) 180 with h180 | h180
      · rw [if_pos h180, min_eq_right (by linarith)]
        ring_nf
      · rw [if_neg (not_le.mpr h180), min_eq_left (by linarith)]

/-- `_sep_deg` (markers library) computes the same separation as
`_min_circ_angle` (app). -/
theorem sep_deg_eq_min_circ (a b : ℚ) : _sep_deg a b = _min_circ_angle a b := rfl

/-- C6 (amended only in presentation): combustion flags behave as claimed in
both implementations, the separation is the claimed circular minimum, and the
Mercury examples evaluate as the spec states. -/
theorem claim_C6_combustion :
    (∀ sidelons : String → ℚ, CombustSpec sidelons) ∧
    (∀ a b : ℚ,
      _min_circ_angle a b = min (pymod |a - b| 360) (360 - pymod |a - b| 360) ∧
      _sep_deg a b = _min_circ_angle a b) ∧
    (statusOf (fun c => if c = "Su" then 20 else 10) "Me").combust = true ∧
    _is_combust_d1 "Me" (fun c => if c = "Su" then 20 else 10) = true ∧
    (statusOf (fun c => if c = "Su" then 25 else 10) "Me").combust = false ∧
    _is_combust_d1 "Me" (fun c => if c = "Su" then 25 else 10) = false := by
  refine ⟨?_, fun a b => ⟨min_circ_angle_eq_spec a b, sep_deg_eq_min_circ a b⟩,
    ?_, ?_, ?_, ?_⟩
  · intro sidelons
    refine ⟨by simp [statusOf, COMBUST_ORB, List.lookup],
      by simp [statusOf, COMBUST_ORB, List.lookup],
      by simp [statusOf, COMBUST_ORB, List.lookup],
      by simp [_is_combust_d1, COMB_ORB, List.lookup],
      by simp [_is_combust_d1, COMB_ORB, List.lookup],
      by simp [_is_combust_d1, COMB_ORB, List.lookup], ?_, ?_⟩
    · intro code orb h
      rcases lookup_COMBUST_ORB h with ⟨hc, ho⟩ | ⟨hc, ho⟩ | ⟨hc, ho⟩ |
        ⟨hc, ho⟩ | ⟨hc, ho⟩ | ⟨hc, ho⟩ <;> subst hc <;> subst ho <;>
        simp [statusOf, COMBUST_ORB, List.lookup, REQUIRE_SAME_SIGN_FOR_COMBUST]
    · intro code orb h
      rcases lookup_COMBUST_ORB h with ⟨hc, ho⟩ | ⟨hc, ho⟩ | ⟨hc, ho⟩ |
        ⟨hc, ho⟩ | ⟨hc, ho⟩ | ⟨hc, ho⟩ <;> subst hc <;> subst ho <;>
        simp [_is_combust_d1, COMB_ORB, List.lookup]
  · simp only [statusOf, COMBUST_ORB, List.lookup, REQUIRE_SAME_SIGN_FOR_COMBUST]
    simp
    norm_num [_min_circ_angle, pymod]
  · simp only [_is_combust_d1, COMB_ORB, List.lookup]
    simp
    norm_num [_sep_deg, pymod]
  · simp only [statusOf, COMBUST_ORB, List.lookup, REQUIRE_SAME_SIGN_FOR_COMBUST]
    simp
    norm_num [_min_circ_angle, pymod]
  · simp only [_is_combust_d1, COMB_ORB, List.lookup]
    simp
    norm_num [_sep_deg, pymod]

/-- Witness for C6: an explicit chart (all planets at 10°, Sun at 20°). -/
theorem claim_C6_witness : CombustSpec (fun c => if c = "Su" then 20 else 10) :=
  claim_C6_combustion.1 (fun c => if c = "Su" then 20 else 10)

/-- `rasi_house_of_lon` at the sign-boundary longitudes `30k`. -/
theorem rasi_house_at_mult (k : ℕ) (S : ℤ) (hk : k < 12) :
    rasi_house_of_lon (30 * k : ℚ) S = (((k : ℤ) + 1 - S) % 12) + 1 := by
  unfold rasi_house_of_lon
  have h0 : (0 : ℚ) ≤ 30 * k := by positivity
  have h1 : (30 * k : ℚ) < 360 := by
    have : (k : ℚ) < 12 := by exact_mod_cast hk
    linarith
  rw [norm_eq_norm360, norm360_eq_self h0 h1]
  have hdiv : (30 * k : ℚ) / 30 = (k : ℚ) := by field_simp
  rw [hdiv, Int.floor_natCast]

/-- C7: on `[0, 360)` the Rasi-house assignment (in both implementations)
equals `((floor(L/30)+1 − S) mod 12) + 1`; longitude 125.3° has sign 5 and,
with lagna sign 1, house 5; and sweeping the longitude through the twelve
sign boundaries visits houses 1..12 cyclically, each exactly once. -/
theorem claim_C7_rasi_house : ∀ S : ℤ, 1 ≤ S → S ≤ 12 → RasiSweepSpec S := by
  intro S hS1 hS2
  refine ⟨?_, ?_, ?_, ?_, ?_⟩
  · intro L hL0 hL1
    constructor
    · unfold rasi_house_of_lon specRasiHouse
      rw [norm_eq_norm360, norm360_eq_self hL0 hL1]
    · rfl
  · have : _norm (1253/10 : ℚ) = 1253/10 := by
      rw [norm_eq_norm360]
      exact norm360_eq_self (by norm_num) (by norm_num)
    unfold rasi_house_of_lon
    rw [this]
    norm_num
  · unfold planet_rasi_sign
    norm_num
  · intro k hk
    rw [rasi_house_at_mult k S (by omega)]
    have : ((k : ℚ) + 1) = ((k + 1 : ℕ) : ℚ) := by push_cast; ring
    rw [show (30 * ((k : ℚ) + 1)) = (30 * ((k + 1 : ℕ) : ℚ)) by push_cast; ring,
      rasi_house_at_mult (k + 1) S (by omega)]
    push_cast
    omega
  · intro h hh1 hh2
    refine ⟨((h - 2 + S) % 12).toNat, by omega, ?_, ?_⟩
    · rw [rasi_house_at_mult _ S (by omega)]
      omega
    · intro j hj hjh
      rw [rasi_house_at_mult j S (by omega)] at hjh
      omega

/-- Witness for C7 with lagna sign 1. -/
theorem claim_C7_witness : (1 ≤ (1 : ℤ) ∧ (1 : ℤ) ≤ 12) ∧ RasiSweepSpec 1 :=
  ⟨⟨by norm_num, by norm_num⟩, claim_C7_rasi_house 1 (by norm_num) (by norm_num)⟩

theorem pyint_of_nonneg {q : ℚ} (h : 0 ≤ q) : pyint q = ⌊q⌋ := by
  unfold pyint
  rw [if_pos h]

theorem pyround_bounds (q : ℚ) : ⌊q⌋ ≤ pyround q ∧ pyround q ≤ ⌊q⌋ + 1 := by
  unfold pyround
  split_ifs <;> omega

theorem pyround_eq_floor_or_ceil (q : ℚ) :
    pyround q = ⌊q⌋ ∨ pyround q = ⌊q⌋ + 1 := by
  unfold pyround
  split_ifs <;> omega

/-- The worked degree value of `_deg_to_dms` equals that of `_dms_signwise`:
normalizing to `[0, 360)` first does not change the value mod 30. -/
theorem pymod_degnorm_30 (x : ℚ) : pymod (_degnorm x) 30 = pymod x 30 := by
  rw [degnorm_eq_norm360, norm360_eq_pymod]
  exact pymod_eq_of_sub_int_mul (by norm_num) (-12 * ⌊x / 360⌋)
    (by unfold pymod; push_cast; ring)

/-- C9 (amended): second and minute carries propagate and all components stay
in range in both formatters; they agree everywhere except when the carry
reaches degree 30, where the Swiss formatter wraps to `(0,0,0)` and the
app formatter clamps to `(29,59,59)`. -/
theorem claim_C9_dms_carries : ∀ x : ℚ, DmsSpec x := by
  intro x
  have hw0 : 0 ≤ pymod x 30 := pymod_nonneg x 30 (by norm_num)
  have hw1 : pymod x 30 < 30 := pymod_lt x 30 (by norm_num)
  set w : ℚ := pymod x 30 with hw
  have hD0 : (0 : ℤ) ≤ ⌊w⌋ := Int.le_floor.mpr (by exact_mod_cast hw0)
  have hD1 : ⌊w⌋ ≤ 29 := by
    have : ⌊w⌋ < 30 := Int.floor_lt.mpr (by exact_mod_cast hw1)
    omega
  have hfr0 : (0 : ℚ) ≤ w - ⌊w⌋ := by
    have := Int.floor_le w
    linarith
  have hfr1 : w - ⌊w⌋ < 1 := by
    have := Int.lt_floor_add_one w
    linarith
  set mf : ℚ := (w - ⌊w⌋) * 60 with hmf
  have hm0 : 0 ≤ mf := by positivity
  have hm1 : mf < 60 := by rw [hmf]; linarith
  have hM0 : (0 : ℤ) ≤ ⌊mf⌋ := Int.le_floor.mpr (by exact_mod_cast hm0)
  have hM1 : ⌊mf⌋ ≤ 59 := by
    have : ⌊mf⌋ < 60 := Int.floor_lt.mpr (by exact_mod_cast hm1)
    omega
  have hsf0 : (0 : ℚ) ≤ (mf - ⌊mf⌋) * 60 := by
    have := Int.floor_le mf
    nlinarith
  have hsf1 : (mf - ⌊mf⌋) * 60 < 60 := by
    have := Int.lt_floor_add_one mf
    nlinarith
  set sf : ℚ := (mf - ⌊mf⌋) * 60 with hsf
  have hS0 : (0 : ℤ) ≤ pyround sf := by
    have h1 := (pyround_bounds sf).1
    have h2 : (0 : ℤ) ≤ ⌊sf⌋ := Int.le_floor.mpr (by exact_mod_cast hsf0)
    omega
  have hS1 : pyround sf ≤ 60 := by
    have h1 := (pyround_bounds sf).2
    have h2 : ⌊sf⌋ < 60 := Int.floor_lt.mpr (by exact_mod_cast hsf1)
    omega
  set D3 : ℤ := if (if pyround sf = 60 then ⌊mf⌋ + 1 else ⌊mf⌋) = 60
      then ⌊w⌋ + 1 else ⌊w⌋ with hD3
  set M3 : ℤ := if (if pyround sf = 60 then ⌊mf⌋ + 1 else ⌊mf⌋) = 60
      then 0 else if pyround sf = 60 then ⌊mf⌋ + 1 else ⌊mf⌋ with hM3
  set S3 : ℤ := if pyround sf = 60 then 0 else pyround sf with hS3
  have hD3r : 0 ≤ D3 ∧ D3 ≤ 30 := by
    rw [hD3]; split_ifs <;> omega
  have hM3r : 0 ≤ M3 ∧ M3 ≤ 59 := by
    rw [hM3]; split_ifs <;> omega
  have hS3r : 0 ≤ S3 ∧ S3 ≤ 59 := by
    rw [hS3]; split_ifs <;> omega
  have hkey : D3 = 30 → M3 = 0 ∧ S3 = 0 := by
    rw [hD3, hM3, hS3]; split_ifs <;> omega
  have happ : _dms_signwise x =
      if D3 ≥ 30 then ((29 : ℤ), (59 : ℤ), (59 : ℤ)) else (D3, M3, S3) := by
    simp only [_dms_signwise]
    rw [← hw, pyint_of_nonneg hw0, ← hmf, pyint_of_nonneg hm0, ← hsf,
      hD3, hM3, hS3]
    simp only [apply_ite Prod.fst, apply_ite Prod.snd]
  have hswiss : _deg_to_dms x =
      if D3 = 30 then ((0 : ℤ), M3, S3) else (D3, M3, S3) := by
    simp only [_deg_to_dms]
    rw [pymod_degnorm_30, ← hw, pyint_of_nonneg hw0, ← hmf,
      pyint_of_nonneg hm0, ← hsf, hD3, hM3, hS3]
    simp only [apply_ite Prod.fst, apply_ite Prod.snd]
  refine ⟨?_, ?_, ?_⟩
  · rw [happ]
    split_ifs with h
    · norm_num
    · dsimp only
      exact ⟨hD3r.1, by omega, hM3r.1, by omega, hS3r.1, by omega⟩
  · rw [hswiss]
    split_ifs with h
    · dsimp only
      exact ⟨by norm_num, by norm_num, hM3r.1, by omega, hS3r.1, by omega⟩
    · dsimp only
      exact ⟨hD3r.1, by omega, hM3r.1, by omega, hS3r.1, by omega⟩
  · rw [happ, hswiss]
    by_cases h : D3 ≥ 30
    · have h30 : D3 = 30 := by omega
      rcases hkey h30 with ⟨hm, hs⟩
      right
      rw [if_pos h, if_pos h30, hm, hs]
      exact ⟨rfl, rfl⟩
    · left
      rw [if_neg h, if_neg (by omega : ¬ D3 = 30)]

/-- C9 counterexample to the claim as stated: at `x = 29°59′59.5″` within the
sign (`x = 215999/7200`), the rounded seconds reach 60 and the carry reaches
degree 30, where `_dms_signwise_str` (app) clamps to `29.59.59` instead of
wrapping to 0; `_deg_to_dms_string` (swiss) does wrap. -/
theorem claim_C9_counterexample :
    _dms_signwise (215999/7200) = (29, 59, 59) ∧
    _deg_to_dms (215999/7200) = (0, 0, 0) ∧
    _dms_signwise (215999/7200) ≠ _deg_to_dms (215999/7200) := by
  have h1 : _dms_signwise (215999/7200) = (29, 59, 59) := by
    norm_num [_dms_signwise, pymod, pyint, pyround]
  have h2 : _deg_to_dms (215999/7200) = (0, 0, 0) := by
    norm_num [_deg_to_dms, _degnorm, pymod, pyint, pyround]
  refine ⟨h1, h2, ?_⟩
  rw [h1, h2]
  simp

set_option maxHeartbeats 1600000 in
/-- C4: each dasha segment subdivides into exactly 9 children in cyclic lord
order starting at the segment lord, with durations `yearsOf(lord) × (D/120)`
summing exactly to `D` and tiling the parent contiguously, in both the
Antardasha and the Pratyantardasha subdivision. -/
theorem claim_C4_dasha_tiling :
    ∀ (md_lord : String) (md_start md_days : ℚ), md_lord ∈ ORDER →
      AntarTilingSpec md_lord md_start md_days := by
  intro md_lord md_start md_days h
  have hr : List.range 9 = [0, 1, 2, 3, 4, 5, 6, 7, 8] := rfl
  simp only [ORDER] at h
  fin_cases h <;>
  · unfold AntarTilingSpec
    refine ⟨?_, ?_, ?_, ?_, ?_, ?_, ?_, ?_, ?_, ?_, ?_, ?_, ?_⟩ <;>
      simp [antar_segments_in_md_utc, pratyantars_in_antar_utc, ORDER, YEARS,
        hr, List.getLast?] <;>
      first
        | rfl
        | ring_nf

/-- Witness for C4: the full 120-day cycle starting at Ketu. -/
theorem claim_C4_witness : "Ke" ∈ ORDER ∧ AntarTilingSpec "Ke" 0 120 :=
  ⟨by simp [ORDER], claim_C4_dasha_tiling "Ke" 0 120 (by simp [ORDER])⟩

/-- C5 (amended): `next_antar_in_days_utc` returns exactly the Antardasha
segments overlapping the window, ends clamped to the horizon, sorted by
the reported end. -/
theorem claim_C5_next_antar :
    ∀ (now_utc : ℚ) (md_segments : List MdSeg) (days_window : ℚ),
      NextAntarSpec now_utc md_segments days_window := by
  intro now_utc md_segments days_window
  constructor
  · intro r
    simp only [next_antar_in_days_utc, List.mem_mergeSort, List.mem_flatMap,
      List.mem_filterMap]
    constructor
    · rintro ⟨seg, hseg, a, ha, heq⟩
      by_cases hc : a.stop < now_utc ∨ a.start > now_utc + days_window
      · rw [if_pos hc] at heq
        cases heq
      · rw [if_neg hc] at heq
        push_neg at hc
        exact ⟨seg, hseg, a, ha, hc.1, hc.2, (Option.some.inj heq).symm⟩
    · rintro ⟨seg, hseg, a, ha, h1, h2, heq⟩
      refine ⟨seg, hseg, a, ha, ?_⟩
      rw [if_neg (by push_neg; exact ⟨by linarith, by linarith⟩)]
      rw [heq]
  · simp only [next_antar_in_days_utc]
    have hs := @List.sorted_mergeSort AntarRow
      (fun r1 r2 : AntarRow => decide (r1.stop ≤ r2.stop))
      (fun a b c hab hbc => by
        simp only [decide_eq_true_eq] at *
        linarith)
      (fun a b => by
        simp only [Bool.or_eq_true, decide_eq_true_eq]
        exact le_total a.stop b.stop)
      (md_segments.flatMap (fun seg =>
        (antar_segments_in_md_utc seg.planet seg.start seg.days).filterMap
          (fun a =>
            if a.stop < now_utc ∨ a.start > now_utc + days_window then none
            else some ⟨seg.planet, a.lord,
              min a.stop (now_utc + days_window)⟩)))
    exact hs.imp (fun h => by simpa using h)

/-- C5 counterexample to the claim as stated: with one Mahadasha
(Ketu, start 0, 120 days), `now = 0` and a 10-day window, the output contains
a Venus row (reported end 10 = the horizon) even though no Antardasha segment
of the chart has its end instant inside `[0, 10]` other than the Ketu one
(end 7): the code keeps every segment overlapping the window, not only those
ending inside it. -/
theorem claim_C5_counterexample :
    (⟨"Ke", "Ve", 10⟩ : AntarRow) ∈
      next_antar_in_days_utc 0 [⟨"Ke", 0, 120, 120⟩] 10 ∧
    ∀ a ∈ antar_segments_in_md_utc "Ke" 0 120,
      ¬(a.lord = "Ve" ∧ 0 ≤ a.stop ∧ a.stop ≤ 10) := by
  have hr : List.range 9 = [0, 1, 2, 3, 4, 5, 6, 7, 8] := rfl
  have hsegs : antar_segments_in_md_utc "Ke" 0 120 =
      [⟨"Ke", 0, 7, 7⟩, ⟨"Ve", 7, 27, 20⟩, ⟨"Su", 27, 33, 6⟩,
       ⟨"Mo", 33, 43, 10⟩, ⟨"Ma", 43, 50, 7⟩, ⟨"Ra", 50, 68, 18⟩,
       ⟨"Ju", 68, 84, 16⟩, ⟨"Sa", 84, 103, 19⟩, ⟨"Me", 103, 120, 17⟩] := by
    simp [antar_segments_in_md_utc, ORDER, YEARS, hr]
    norm_num
  constructor
  · simp only [next_antar_in_days_utc, List.mem_mergeSort, List.mem_flatMap,
      List.mem_filterMap, List.mem_singleton]
    refine ⟨⟨"Ke", 0, 120, 120⟩, rfl, ⟨"Ve", 7, 27, 20⟩, ?_, ?_⟩
    · rw [hsegs]
      simp
    · norm_num
  · intro a ha
    rw [hsegs] at ha
    fin_cases ha <;> simp <;> norm_num

/-- C1 (amended): `compute_chalit_cusps_arrays` (app) satisfies the claimed
formula exactly — sidereal cusps rounded to the arc-second, then
`begin[i] = roundSec(normalize(mid[i−1] + forwardArc(mid[i−1], mid[i])/2))` —
while `get_chalit_begins_mids_swiss` instead returns the *unrounded* midpoint
of the forward arc from `mid[i]` to `mid[i+1]`. -/
theorem claim_C1_chalit_begins :
    (∀ (ct : Fin 12 → ℚ) (ay : ℚ) (i : Fin 12),
      (compute_chalit_cusps_arrays ct ay).2 i =
        roundSecond (pymod (ct i - ay) 360) ∧
      (compute_chalit_cusps_arrays ct ay).1 i =
        roundSecond (specNormalize ((compute_chalit_cusps_arrays ct ay).2 (i - 1) +
          forwardArc ((compute_chalit_cusps_arrays ct ay).2 (i - 1))
            ((compute_chalit_cusps_arrays ct ay).2 i) / 2))) ∧
    (∀ (cusps : Fin 12 → ℚ) (i : Fin 12),
      (get_chalit_begins_mids_swiss cusps).1 i =
        _degnorm ((get_chalit_begins_mids_swiss cusps).2 i +
          forwardArc ((get_chalit_begins_mids_swiss cusps).2 i)
            ((get_chalit_begins_mids_swiss cusps).2 (i + 1)) / 2)) := by
  constructor
  · intro ct ay i
    refine ⟨rfl, ?_⟩
    rw [forwardArc_eq_pymod, specNormalize_eq_norm360, norm360_eq_pymod]
    rfl
  · intro cusps i
    have hc0 : 0 ≤ _degnorm (cusps i) := by
      rw [degnorm_eq_norm360]; exact norm360_nonneg _
    have hc1 : _degnorm (cusps i) < 360 := by
      rw [degnorm_eq_norm360]; exact norm360_lt _
    have hn0 : 0 ≤ _degnorm (cusps (i + 1)) := by
      rw [degnorm_eq_norm360]; exact norm360_nonneg _
    have hn1 : _degnorm (cusps (i + 1)) < 360 := by
      rw [degnorm_eq_norm360]; exact norm360_lt _
    rw [forwardArc_eq_pymod]
    simp only [get_chalit_begins_mids_swiss]
    by_cases h : _degnorm (cusps (i + 1)) < _degnorm (cusps i)
    · rw [if_pos h]
      rw [pymod_self_sub _ (by linarith) (by linarith)]
      ring_nf
    · rw [if_neg h]
      push_neg at h
      rw [pymod_eq_self (by norm_num) (by linarith) (by linarith)]
      ring_nf

theorem pyround_intCast (n : ℤ) : pyround (n : ℚ) = n := by
  unfold pyround
  norm_num

/-- C1 counterexample to the claim as stated: on the common cusp set
0°, 30°, …, 330° (sidereal, ayanamsa 0) the two implementations agree on
every mid-cusp, but house 1's Chalit begin is 345° (midpoint of the arc from
mid 12 to mid 1, per the claimed formula and `compute_chalit_cusps_arrays`)
whereas `get_chalit_begins_mids_swiss` returns 15° (midpoint of the arc from
mid 1 to mid 2). -/
theorem claim_C1_counterexample :
    (∀ i : Fin 12, (get_chalit_begins_mids_swiss (fun j => 30 * (j.val : ℚ))).2 i =
      (compute_chalit_cusps_arrays (fun j => 30 * (j.val : ℚ)) 0).2 i) ∧
    (compute_chalit_cusps_arrays (fun j => 30 * (j.val : ℚ)) 0).1 0 = 345 ∧
    roundSecond (specNormalize
      ((compute_chalit_cusps_arrays (fun j => 30 * (j.val : ℚ)) 0).2 (0 - 1) +
        forwardArc ((compute_chalit_cusps_arrays (fun j => 30 * (j.val : ℚ)) 0).2 (0 - 1))
          ((compute_chalit_cusps_arrays (fun j => 30 * (j.val : ℚ)) 0).2 0) / 2)) = 345 ∧
    (get_chalit_begins_mids_swiss (fun j => 30 * (j.val : ℚ))).1 0 = 15 ∧
    (15 : ℚ) ≠ 345 := by
  have h12 : ((0 : Fin 12) - 1) = (11 : Fin 12) := by decide
  have h01 : ((0 : Fin 12) + 1) = (1 : Fin 12) := by decide
  have hval : ∀ i : Fin 12, ((i.val : ℚ)) < 12 := by
    intro i
    exact_mod_cast i.isLt
  have hval0 : ∀ i : Fin 12, (0 : ℚ) ≤ (i.val : ℚ) := by
    intro i
    positivity
  have hmid : ∀ i : Fin 12,
      (compute_chalit_cusps_arrays (fun j => 30 * (j.val : ℚ)) 0).2 i =
        30 * (i.val : ℚ) := by
    intro i
    show roundSecond (pymod (30 * (i.val : ℚ) - 0) 360) = 30 * (i.val : ℚ)
    rw [sub_zero, pymod_eq_self (by norm_num) (by positivity)
      (by linarith [hval i])]
    show (pyround ((30 * (i.val : ℚ)) * 3600) : ℚ) / 3600 = 30 * (i.val : ℚ)
    have : ((30 * (i.val : ℚ)) * 3600) = ((108000 * i.val : ℤ) : ℚ) := by
      push_cast
      ring
    rw [this, pyround_intCast]
    push_cast
    ring
  have hmids : ∀ i : Fin 12,
      (get_chalit_begins_mids_swiss (fun j => 30 * (j.val : ℚ))).2 i =
        30 * (i.val : ℚ) := by
    intro i
    show _degnorm (30 * (i.val : ℚ)) = 30 * (i.val : ℚ)
    rw [degnorm_eq_norm360]
    exact norm360_eq_self (by positivity) (by linarith [hval i])
  have hv11 : (((11 : Fin 12).val : ℚ)) = 11 := by
    rw [show ((11 : Fin 12).val) = 11 from rfl]
    norm_num
  have hv0 : (((0 : Fin 12).val : ℚ)) = 0 := by
    rw [show ((0 : Fin 12).val) = 0 from rfl]
    norm_num
  have hv1 : (((1 : Fin 12).val : ℚ)) = 1 := by
    rw [show ((1 : Fin 12).val) = 1 from rfl]
    norm_num
  refine ⟨?_, ?_, ?_, ?_, by norm_num⟩
  · intro i
    rw [hmid i, hmids i]
  · show roundSecond (pymod
      ((compute_chalit_cusps_arrays (fun j => 30 * (j.val : ℚ)) 0).2 (0 - 1) +
        pymod ((compute_chalit_cusps_arrays (fun j => 30 * (j.val : ℚ)) 0).2 0 -
          (compute_chalit_cusps_arrays (fun j => 30 * (j.val : ℚ)) 0).2 (0 - 1)) 360
          / 2) 360) = 345
    rw [h12, hmid, hmid, hv11, hv0]
    norm_num [roundSecond, pyround, pymod]
  · rw [h12, hmid, hmid, hv11, hv0, forwardArc_eq_pymod,
      specNormalize_eq_norm360, norm360_eq_pymod]
    norm_num [roundSecond, pyround, pymod]
  · show _degnorm
      ((get_chalit_begins_mids_swiss (fun j => 30 * (j.val : ℚ))).2 0 + 1/2 *
        ((if (get_chalit_begins_mids_swiss (fun j => 30 * (j.val : ℚ))).2 (0 + 1) <
              (get_chalit_begins_mids_swiss (fun j => 30 * (j.val : ℚ))).2 0
          then (get_chalit_begins_mids_swiss (fun j => 30 * (j.val : ℚ))).2 (0 + 1) + 360
          else (get_chalit_begins_mids_swiss (fun j => 30 * (j.val : ℚ))).2 (0 + 1)) -
          (get_chalit_begins_mids_swiss (fun j => 30 * (j.val : ℚ))).2 0)) = 15
    rw [h01, hmids, hmids, hv1, hv0]
    norm_num [_degnorm, pymod]

/-- `pymod` of a difference only depends on the operands mod 360. -/
theorem pymod_sub_congr (u v : ℚ) :
    pymod (u - v) 360 = pymod (pymod u 360 - pymod v 360) 360 := by
  apply pymod_eq_of_sub_int_mul (by norm_num) (⌊u / 360⌋ - ⌊v / 360⌋)
  unfold pymod
  push_cast
  ring

/-- The app's counter-clockwise membership test agrees with the spec's
forward-arc comparison. -/
theorem is_between_ccw_iff (x s e : ℚ) :
    _is_between_ccw x s e = true ↔ forwardArc s x < forwardArc s e := by
  unfold _is_between_ccw
  simp only [ge_iff_le, decide_eq_true_eq]
  rw [forwardArc_eq_pymod, forwardArc_eq_pymod]
  have hx : pymod (x - s) 360 = pymod (_norm360 x - _norm360 s) 360 := by
    rw [norm360_eq_pymod, norm360_eq_pymod]
    exact pymod_sub_congr x s
  have he : pymod (e - s) 360 = pymod (_norm360 e - _norm360 s) 360 := by
    rw [norm360_eq_pymod, norm360_eq_pymod]
    exact pymod_sub_congr e s
  rw [hx, he]
  have hx0 := norm360_nonneg x
  have hx1 := norm360_lt x
  have hs0 := norm360_nonneg s
  have hs1 := norm360_lt s
  have he0 := norm360_nonneg e
  have he1 := norm360_lt e
  split_ifs with hse
  · rw [decide_eq_true_eq]
    rw [pymod_eq_self (by norm_num) (by linarith) (by linarith :
      _norm360 e - _norm360 s < 360)]
    by_cases hxs : _norm360 s ≤ _norm360 x
    · rw [pymod_eq_self (by norm_num) (by linarith) (by linarith :
        _norm360 x - _norm360 s < 360)]
      constructor
      · rintro ⟨_, h2⟩
        linarith
      · intro h
        exact ⟨hxs, by linarith⟩
    · push_neg at hxs
      rw [pymod_self_sub _ (by linarith) (by linarith)]
      constructor
      · rintro ⟨h1, _⟩
        exact absurd h1 (not_le.mpr hxs)
      · intro h
        exfalso
        linarith
  · push_neg at hse
    rw [decide_eq_true_eq]
    rw [pymod_self_sub (_norm360 e - _norm360 s) (by linarith) (by linarith)]
    by_cases hxs : _norm360 s ≤ _norm360 x
    · rw [pymod_eq_self (by norm_num) (by linarith) (by linarith :
        _norm360 x - _norm360 s < 360)]
      constructor
      · intro _
        linarith
      · intro _
        exact Or.inl hxs
    · push_neg at hxs
      rw [pymod_self_sub (_norm360 x - _norm360 s) (by linarith) (by linarith)]
      constructor
      · rintro (h | h)
        · exact absurd h (not_le.mpr hxs)
        · linarith
      · intro h
        exact Or.inr (by linarith)

theorem arcSum_nonneg (b : Fin 12 → ℚ)
    (hpos : ∀ i : Fin 12, 0 < arcOf b i) (k : ℕ) : 0 ≤ arcSum b k := by
  unfold arcSum
  exact Finset.sum_nonneg (fun i _ => (hpos _).le)

theorem arcSum_mono (b : Fin 12 → ℚ)
    (hpos : ∀ i : Fin 12, 0 < arcOf b i) {j k : ℕ} (h : j ≤ k) :
    arcSum b j ≤ arcSum b k := by
  unfold arcSum
  exact Finset.sum_le_sum_of_subset_of_nonneg
    (Finset.range_subset.mpr h) (fun i _ _ => (hpos _).le)

theorem arcSum_twelve (b : Fin 12 → ℚ)
    (hsum : (∑ i : Fin 12, arcOf b i) = 360) : arcSum b 12 = 360 := by
  unfold arcSum
  rw [← Fin.sum_univ_eq_sum_range (fun i => arcOf b (i : Fin 12)) 12]
  rw [← hsum]
  apply Finset.sum_congr rfl
  intro i _
  rw [Fin.cast_val_eq_self]

theorem arcSum_succ (b : Fin 12 → ℚ) (k : ℕ) :
    arcSum b (k + 1) = arcSum b k + arcOf b (k : Fin 12) := by
  unfold arcSum
  rw [Finset.sum_range_succ]

theorem arcSum_lt_360 (b : Fin 12 → ℚ)
    (hpos : ∀ i : Fin 12, 0 < arcOf b i)
    (hsum : (∑ i : Fin 12, arcOf b i) = 360) {k : ℕ} (hk : k < 12) :
    arcSum b k < 360 := by
  have h1 : arcSum b k < arcSum b (k + 1) := by
    rw [arcSum_succ]
    linarith [hpos (k : Fin 12)]
  have h2 : arcSum b (k + 1) ≤ arcSum b 12 := arcSum_mono b hpos (by omega)
  rw [arcSum_twelve b hsum] at h2
  linarith

/-- Walking forward from begin 1, the cumulative position of begin `k+1`
is the partial arc sum. -/
theorem pymod_cumulative (b : Fin 12 → ℚ)
    (hpos : ∀ i : Fin 12, 0 < arcOf b i)
    (hsum : (∑ i : Fin 12, arcOf b i) = 360) :
    ∀ k : ℕ, k ≤ 11 → pymod (b (k : Fin 12) - b 0) 360 = arcSum b k := by
  intro k
  induction k with
  | zero =>
    intro _
    rw [Nat.cast_zero, sub_self, pymod_zero]
    unfold arcSum
    rw [Finset.sum_range_zero]
  | succ k ih =>
    intro hk
    have ihk := ih (by omega)
    have hcast : ((k + 1 : ℕ) : Fin 12) = (k : Fin 12) + 1 := by push_cast; ring
    rw [hcast]
    have harc : b ((k : Fin 12) + 1) - b (k : Fin 12) =
        arcOf b (k : Fin 12) + 360 * ⌊(b ((k : Fin 12) + 1) - b (k : Fin 12)) / 360⌋ := by
      unfold arcOf
      rw [forwardArc_eq_pymod]
      unfold pymod
      ring
    have hcum : b (k : Fin 12) - b 0 =
        arcSum b k + 360 * ⌊(b (k : Fin 12) - b 0) / 360⌋ := by
      rw [← ihk]
      unfold pymod
      ring
    have hdecomp : b ((k : Fin 12) + 1) - b 0 =
        (arcSum b k + arcOf b (k : Fin 12)) +
          360 * ((⌊(b ((k : Fin 12) + 1) - b (k : Fin 12)) / 360⌋ +
            ⌊(b (k : Fin 12) - b 0) / 360⌋ : ℤ) : ℚ) := by
      push_cast
      linarith [harc, hcum]
    rw [pymod_eq_of_sub_int_mul (by norm_num) _ hdecomp]
    rw [← arcSum_succ]
    exact pymod_eq_self (by norm_num) (arcSum_nonneg b hpos _)
      (arcSum_lt_360 b hpos hsum (by omega))

/-- The forward arc from begin `m+1` to `L`, via the position of `L` as seen
from begin 1. -/
theorem forwardArc_from_begin (b : Fin 12 → ℚ)
    (hpos : ∀ i : Fin 12, 0 < arcOf b i)
    (hsum : (∑ i : Fin 12, arcOf b i) = 360) (L : ℚ) (m : Fin 12) :
    forwardArc (b m) L =
      pymod (forwardArc (b 0) L - arcSum b m.val) 360 := by
  have hm := pymod_cumulative b hpos hsum m.val (by omega)
  rw [Fin.cast_val_eq_self] at hm
  rw [forwardArc_eq_pymod, forwardArc_eq_pymod]
  have hL : L - b m = (L - b 0) - (b m - b 0) := by ring
  rw [hL, pymod_sub_congr (L - b 0) (b m - b 0), hm]

/-- Interval characterisation: house `m` contains `L` iff the position `d`
of `L` from begin 1 lands in the `m`-th partial-sum window. -/
theorem house_window_iff (b : Fin 12 → ℚ)
    (hpos : ∀ i : Fin 12, 0 < arcOf b i)
    (hsum : (∑ i : Fin 12, arcOf b i) = 360) (L : ℚ) (m : Fin 12) :
    (forwardArc (b m) L < arcOf b m ↔
      arcSum b m.val ≤ forwardArc (b 0) L ∧
        forwardArc (b 0) L < arcSum b (m.val + 1)) := by
  have hd0 : 0 ≤ forwardArc (b 0) L := by
    rw [forwardArc_eq_pymod]
    exact pymod_nonneg _ 360 (by norm_num)
  have hd1 : forwardArc (b 0) L < 360 := by
    rw [forwardArc_eq_pymod]
    exact pymod_lt _ 360 (by norm_num)
  have hS0 : 0 ≤ arcSum b m.val := arcSum_nonneg b hpos _
  have hS1 : arcSum b m.val < 360 := arcSum_lt_360 b hpos hsum (by omega)
  have hsucc : arcSum b (m.val + 1) = arcSum b m.val + arcOf b m := by
    rw [arcSum_succ]
    congr 1
    rw [Fin.cast_val_eq_self]
  have hle : arcSum b (m.val + 1) ≤ 360 := by
    have := arcSum_mono b hpos (show m.val + 1 ≤ 12 by omega)
    rw [arcSum_twelve b hsum] at this
    exact this
  rw [forwardArc_from_begin b hpos hsum L m]
  by_cases hc : arcSum b m.val ≤ forwardArc (b 0) L
  · rw [pymod_eq_self (by norm_num) (by linarith) (by linarith)]
    constructor
    · intro h
      exact ⟨hc, by linarith [hsucc]⟩
    · rintro ⟨_, h2⟩
      linarith [hsucc]
  · push_neg at hc
    rw [pymod_self_sub _ (by linarith) (by linarith)]
    constructor
    · intro h
      exfalso
      linarith [hsucc]
    · rintro ⟨h1, _⟩
      exact absurd h1 (not_le.mpr hc)

theorem window_exists (b : Fin 12 → ℚ)
    (hpos : ∀ i : Fin 12, 0 < arcOf b i)
    (hsum : (∑ i : Fin 12, arcOf b i) = 360) (L : ℚ) :
    ∃ k : ℕ, k < 12 ∧ arcSum b k ≤ forwardArc (b 0) L ∧
      forwardArc (b 0) L < arcSum b (k + 1) := by
  have hd0 : 0 ≤ forwardArc (b 0) L := by
    rw [forwardArc_eq_pymod]
    exact pymod_nonneg _ 360 (by norm_num)
  have hd1 : forwardArc (b 0) L < 360 := by
    rw [forwardArc_eq_pymod]
    exact pymod_lt _ 360 (by norm_num)
  have climb : ∀ n : ℕ, forwardArc (b 0) L < arcSum b n →
      ∃ k : ℕ, k < n ∧ arcSum b k ≤ forwardArc (b 0) L ∧
        forwardArc (b 0) L < arcSum b (k + 1) := by
    intro n
    induction n with
    | zero =>
      intro h
      exfalso
      have h0 : arcSum b 0 = 0 := by
        unfold arcSum
        exact Finset.sum_range_zero _
      rw [h0] at h
      linarith
    | succ n ih =>
      intro h
      by_cases hn : arcSum b n ≤ forwardArc (b 0) L
      · exact ⟨n, by omega, hn, h⟩
      · push_neg at hn
        obtain ⟨k, hk, h1, h2⟩ := ih hn
        exact ⟨k, by omega, h1, h2⟩
  have h12 : forwardArc (b 0) L < arcSum b 12 := by
    rw [arcSum_twelve b hsum]
    exact hd1
  exact climb 12 h12

theorem window_unique (b : Fin 12 → ℚ)
    (hpos : ∀ i : Fin 12, 0 < arcOf b i) (d : ℚ) {j k : ℕ}
    (h1 : arcSum b j ≤ d ∧ d < arcSum b (j + 1))
    (h2 : arcSum b k ≤ d ∧ d < arcSum b (k + 1)) : j = k := by
  rcases Nat.lt_trichotomy j k with h | h | h
  · have hm := arcSum_mono b hpos (show j + 1 ≤ k by omega)
    exfalso
    linarith [h1.2, h2.1]
  · exact h
  · have hm := arcSum_mono b hpos (show k + 1 ≤ j by omega)
    exfalso
    linarith [h2.2, h1.1]

/-- The renderer's per-interval test agrees with the spec's forward-arc
comparison on non-degenerate intervals. -/
theorem renderer_pred_iff (b : Fin 12 → ℚ) (L : ℚ) (i : Fin 12)
    (hpos : 0 < arcOf b i) :
    ((!(decide (pymod (b (i + 1) - b i) 360 = 0)) &&
      decide (0 ≤ pymod (_norm L - b i) 360 ∧
        pymod (_norm L - b i) 360 <
          pymod (b (i + 1) - b i) 360)) = true) ↔
    forwardArc (b i) L < arcOf b i := by
  have harc : pymod (b (i + 1) - b i) 360 = arcOf b i := by
    unfold arcOf
    rw [forwardArc_eq_pymod]
  have hlon : pymod (_norm L - b i) 360 = forwardArc (b i) L := by
    rw [forwardArc_eq_pymod]
    apply pymod_eq_of_sub_int_mul (by norm_num) (-⌊L / 360⌋)
    rw [norm_eq_norm360, norm360_eq_pymod]
    unfold pymod
    push_cast
    ring
  rw [harc, hlon]
  simp only [Bool.and_eq_true, Bool.not_eq_true', decide_eq_false_iff_not,
    decide_eq_true_eq]
  constructor
  · rintro ⟨_, _, h2⟩
    exact h2
  · intro h
    refine ⟨ne_of_gt hpos, ?_, h⟩
    rw [forwardArc_eq_pymod]
    exact pymod_nonneg _ 360 (by norm_num)

set_option maxHeartbeats 1600000 in
/-- C2: when the twelve forward arcs are positive and partition the full
circle, there is a unique house `n` whose half-open forward interval contains
`L`, and both Chalit house-lookup implementations return it, across the
0°/360° wrap and with no special case at the origin. -/
theorem claim_C2_chalit_house : ∀ (L : ℚ) (b : Fin 12 → ℚ),
    (∀ i : Fin 12, 0 < forwardArc (b i) (b (i + 1))) →
    (∑ i : Fin 12, forwardArc (b i) (b (i + 1))) = 360 →
    ChalitFindSpec L b := by
  intro L b hpos0 hsum0
  have hpos : ∀ i : Fin 12, 0 < arcOf b i := hpos0
  have hsum : (∑ i : Fin 12, arcOf b i) = 360 := hsum0
  obtain ⟨k, hk, hw1, hw2⟩ := window_exists b hpos hsum L
  refine ⟨⟨k, hk⟩, ?_, ?_, ?_, ?_⟩
  case _ =>
    have hwin := house_window_iff b hpos hsum L ⟨k, hk⟩
    exact hwin.mpr ⟨hw1, hw2⟩
  case _ =>
    intro m hm
    have hwin := house_window_iff b hpos hsum L m
    have h2 := hwin.mp hm
    exact Fin.ext (window_unique b hpos (forwardArc (b 0) L) h2 ⟨hw1, hw2⟩)
  case _ =>
    have hwinn := house_window_iff b hpos hsum L ⟨k, hk⟩
    have hPn : forwardArc (b ⟨k, hk⟩) L < arcOf b ⟨k, hk⟩ :=
      hwinn.mpr ⟨hw1, hw2⟩
    have hcase : List.find? (fun i : Fin 12 =>
        _is_between_ccw L (b i) (b (i + 1))) (List.finRange 12) =
        some ⟨k, hk⟩ := by
      cases hf : List.find? (fun i : Fin 12 =>
          _is_between_ccw L (b i) (b (i + 1))) (List.finRange 12) with
      | none =>
        exfalso
        have hnone := List.find?_eq_none.mp hf ⟨k, hk⟩ (List.mem_finRange _)
        have hiff := is_between_ccw_iff L (b ⟨k, hk⟩) (b (⟨k, hk⟩ + 1))
        exact hnone (hiff.mpr hPn)
      | some i =>
        have hp := List.find?_some hf
        have hiff := is_between_ccw_iff L (b i) (b (i + 1))
        have hPi : forwardArc (b i) L < arcOf b i := hiff.mp hp
        have hwin := house_window_iff b hpos hsum L i
        have h2 := hwin.mp hPi
        have hvk : i.val = k := window_unique b hpos (forwardArc (b 0) L) h2 ⟨hw1, hw2⟩
        have hik : i = ⟨k, hk⟩ := Fin.ext hvk
        rw [hik]
    unfold chalit_house_index_of_lon
    rw [hcase]
  case _ =>
    have hwinn := house_window_iff b hpos hsum L ⟨k, hk⟩
    have hPn : forwardArc (b ⟨k, hk⟩) L < arcOf b ⟨k, hk⟩ :=
      hwinn.mpr ⟨hw1, hw2⟩
    have hcase : List.find? (fun i : Fin 12 =>
        !(decide (pymod (b (i + 1) - b i) 360 = 0)) &&
        decide (0 ≤ pymod (_norm L - b i) 360 ∧
          pymod (_norm L - b i) 360 <
            pymod (b (i + 1) - b i) 360)) (List.finRange 12) =
        some ⟨k, hk⟩ := by
      cases hf : List.find? (fun i : Fin 12 =>
          !(decide (pymod (b (i + 1) - b i) 360 = 0)) &&
          decide (0 ≤ pymod (_norm L - b i) 360 ∧
            pymod (_norm L - b i) 360 <
              pymod (b (i + 1) - b i) 360)) (List.finRange 12) with
      | none =>
        exfalso
        have hnone := List.find?_eq_none.mp hf ⟨k, hk⟩ (List.mem_finRange _)
        have hiff := renderer_pred_iff b L ⟨k, hk⟩ (hpos ⟨k, hk⟩)
        exact hnone (hiff.mpr hPn)
      | some i =>
        have hp := List.find?_some hf
        have hiff := renderer_pred_iff b L i (hpos i)
        have hPi : forwardArc (b i) L < arcOf b i := hiff.mp hp
        have hwin := house_window_iff b hpos hsum L i
        have h2 := hwin.mp hPi
        have hvk : i.val = k := window_unique b hpos (forwardArc (b 0) L) h2 ⟨hw1, hw2⟩
        have hik : i = ⟨k, hk⟩ := Fin.ext hvk
        rw [hik]
    simp only [house_index_for_lon_chalit]
    rw [hcase]

/-- Witness for C2: the equal 30° begins grid and longitude 5°. -/
theorem claim_C2_witness :
    (∀ i : Fin 12, 0 < forwardArc (30 * (i.val : ℚ))
      (30 * (((i + 1) : Fin 12).val : ℚ))) ∧
    (∑ i : Fin 12, forwardArc (30 * (i.val : ℚ))
      (30 * (((i + 1) : Fin 12).val : ℚ))) = 360 ∧
    ChalitFindSpec 5 (fun j : Fin 12 => 30 * (j.val : ℚ)) := by
  have key : ∀ i : Fin 12, forwardArc (30 * (i.val : ℚ))
      (30 * (((i + 1) : Fin 12).val : ℚ)) = 30 := by
    intro i
    rw [forwardArc_eq_pymod, Fin.val_add_one]
    by_cases h : i = Fin.last 11
    · rw [if_pos h, h]
      rw [show ((Fin.last 11 : Fin 12).val) = 11 from rfl]
      norm_num [pymod]
    · rw [if_neg h]
      push_cast
      rw [show (30 * ((i.val : ℚ) + 1) - 30 * (i.val : ℚ)) = 30 from by ring]
      exact pymod_eq_self (by norm_num) (by norm_num) (by norm_num)
  have hsum : (∑ i : Fin 12, forwardArc (30 * (i.val : ℚ))
      (30 * (((i + 1) : Fin 12).val : ℚ))) = 360 := by
    rw [Finset.sum_congr rfl (fun i _ => key i)]
    simp
    norm_num
  refine ⟨fun i => by rw [key i]; norm_num, hsum, ?_⟩
  have h1 : ∀ i : Fin 12, 0 < forwardArc ((fun j : Fin 12 => 30 * (j.val : ℚ)) i)
      ((fun j : Fin 12 => 30 * (j.val : ℚ)) (i + 1)) := by
    intro i
    show 0 < forwardArc (30 * (i.val : ℚ)) (30 * (((i + 1) : Fin 12).val : ℚ))
    rw [key i]
    norm_num
  have h2 : (∑ i : Fin 12, forwardArc ((fun j : Fin 12 => 30 * (j.val : ℚ)) i)
      ((fun j : Fin 12 => 30 * (j.val : ℚ)) (i + 1))) = 360 := by
    show (∑ i : Fin 12, forwardArc (30 * (i.val : ℚ))
      (30 * (((i + 1) : Fin 12).val : ℚ))) = 360
    exact hsum
  exact claim_C2_chalit_house 5 (fun j : Fin 12 => 30 * (j.val : ℚ)) h1 h2

/-- Witness for C5 at a concrete chart. -/
theorem claim_C5_witness : NextAntarSpec 0 [⟨"Ke", 0, 120, 120⟩] 100 :=
  claim_C5_next_antar 0 [⟨"Ke", 0, 120, 120⟩] 100

end Kundali
